import Mathlib

/-!
Shallow embedding of `ibisml/steps/impute.py`: the `FillNA`, `ImputeMean`,
`ImputeMedian` and `ImputeMode` steps and their `fit` methods, together with
the external collaborators they consume (column selector, metadata, table and
aggregation engine), modelled from the specification where the collaborator's
code is not part of the source under verification.
-/

namespace Ibisml

/-- Scalar substitution values: the `Any`-typed fill values and the scalars an
aggregation returns (a concrete closed universe suffices for the embedding). -/
inductive Scalar
  | int (i : Int)
  | str (s : String)
  | null
deriving DecidableEq

/-- Declared column data types, abstracted to the distinctions the code
inspects (ibis dtypes). -/
inductive DataType
  | int64
  | float64
  | boolean
  | string
  | timestamp
deriving DecidableEq

/-- Whether a column of this declared type is an `ir.NumericColumn` in ibis's
expression-type hierarchy (integer, floating and boolean columns are; string
and timestamp columns are not). -/
def DataType.isNumeric : DataType → Bool
  | .int64 => true
  | .float64 => true
  | .boolean => true
  | .string => false
  | .timestamp => false

/-- A column handle (`ir.Column`): its name and declared type. -/
structure Column where
  name : String
  dtype : DataType
deriving DecidableEq

/-- Scalar aggregate expressions (`ir.Scalar`) built by the per-variant
statistic strategies: `col.mean()`, `col.median()`, `col.mode()`. -/
inductive AggExpr
  | mean (col : Column)
  | median (col : Column)
  | mode (col : Column)
deriving DecidableEq

/-- Python exception classes relevant to this core. -/
inductive ExcClass
  | typeError
  | valueError
  | keyError
deriving DecidableEq

/-- A raised Python exception: its class and its message. -/
structure Exc where
  cls : ExcClass
  msg : String
deriving DecidableEq

/-- Lookup of a column's declared type in a table schema (first match). -/
def lookupType : List (String × DataType) → String → Option DataType
  | [], _ => none
  | (n, d) :: rest, c => if n = c then some d else lookupType rest c

/-- A table handle (`ir.Table`): a schema, plus the external engine's
evaluation of a scalar aggregate expression over the table's data.  The engine
itself is out of scope; it is modelled as an uninterpreted function from
aggregate expressions to scalars. -/
structure Table where
  schema : List (String × DataType)
  evalAgg : AggExpr → Scalar

/-- Modelled from the spec: `Metadata` is read-only schema/role information,
keyed by column name, passed through unchanged from the caller to the
selector (`ibisml.core.Metadata` is not under `src/`). -/
structure Metadata where
  role : String → Option String

/-- Modelled from the spec: a selection spec (`SelectionType`) is either an
explicit ordered list of column names or a predicate over a column's name,
declared type and role (`ibisml/select.py` is not under `src/`). -/
inductive Selector
  | names (ns : List String)
  | pred (p : String → DataType → Option String → Bool)

/-- Collapse duplicate names so the resolved sequence is distinct, as the
spec requires of the selector's output. -/
def dedupNames : List String → List String
  | [] => []
  | n :: rest =>
    if n ∈ dedupNames rest then dedupNames rest else n :: dedupNames rest

/-- Modelled from the spec: `Selector.select_columns(table, metadata)` returns
an ordered sequence of distinct column names; it fails clearly if an
explicitly named column is absent from the table's schema, while for a
predicate-based spec an empty result is valid, not an error. -/
def Selector.selectColumns : Selector → Table → Metadata → Except Exc (List String)
  | .names ns, t, _ =>
    if ns.all (fun n => (lookupType t.schema n).isSome) then
      .ok (dedupNames ns)
    else
      .error ⟨.keyError, "column not found in table"⟩
  | .pred p, t, m =>
    .ok (t.schema.filterMap (fun nd =>
      if p nd.1 nd.2 (m.role nd.1) then some nd.1 else none))

/-- The transform sink: `ml.transforms.FillNA` holds an immutable mapping from
column name to scalar.  Modelled from the spec, the `ml.transforms` module
also holds other transform kinds (their apply-time behavior is external);
they are represented abstractly so that "which kind of transform a step
emits" is expressible. -/
inductive Transform
  | fillNA (mapping : List (String × Scalar))
  | otherKind (tag : String) (mapping : List (String × Scalar))
deriving DecidableEq

/-- Construction of `ml.transforms.FillNA` from a mapping, the sole transform
constructor this core invokes. -/
def transformsFillNA (mapping : List (String × Scalar)) : Transform :=
  .fillNA mapping

/-- The step variants defined in `ibisml/steps/impute.py`.  Each holds the
selector built from its `inputs` argument; `FillNA` additionally holds its
`fill_value`. -/
inductive Step
  | fillNA (inputs : Selector) (fill_value : Scalar)
  | imputeMean (inputs : Selector)
  | imputeMedian (inputs : Selector)
  | imputeMode (inputs : Selector)

/-- The selector a step was configured with (`self.inputs`). -/
def Step.inputs : Step → Selector
  | .fillNA s _ => s
  | .imputeMean s => s
  | .imputeMedian s => s
  | .imputeMode s => s

/-- Shared shape of the two numeric-only statistic strategies:
`ImputeMean._stat` and `ImputeMedian._stat` both check
`isinstance(col, ir.NumericColumn)` and raise
`ValueError(f"Cannot compute OP of NAME - this column is not numeric")`
when the check fails. -/
def numericStat (op : String) (agg : Column → AggExpr) (col : Column) :
    Except Exc AggExpr :=
  if col.dtype.isNumeric then
    .ok (agg col)
  else
    .error ⟨.valueError,
      "Cannot compute " ++ op ++ " of " ++ col.name ++
        " - this column is not numeric"⟩

/-- Embedding of `ImputeMean._stat`: raise `ValueError` if the column is not
numeric, else return `col.mean()`. -/
def ImputeMean.stat : Column → Except Exc AggExpr :=
  numericStat "mean" AggExpr.mean

/-- Embedding of `ImputeMedian._stat`: raise `ValueError` if the column is not
numeric, else return `col.median()`. -/
def ImputeMedian.stat : Column → Except Exc AggExpr :=
  numericStat "median" AggExpr.median

/-- Embedding of `ImputeMode._stat`: return `col.mode()` unconditionally,
with no type check. -/
def ImputeMode.stat (col : Column) : Except Exc AggExpr :=
  .ok (.mode col)

/-- Column projection `table[c]`: a `Column` handle carrying the declared
type, or a `KeyError` when the name is absent from the schema. -/
def Table.getColumn (t : Table) (c : String) : Except Exc Column :=
  match lookupType t.schema c with
  | some d => .ok ⟨c, d⟩
  | none => .error ⟨.keyError, c⟩

/-- Embedding of the list comprehension
`[self._stat(table[c]).name(c) for c in columns]` inside `_BaseImpute.fit`:
built left to right, each aggregate labeled with its column's own name; the
first exception aborts construction of the whole request. -/
def buildAggs (stat : Column → Except Exc AggExpr) (t : Table) :
    List String → Except Exc (List (String × AggExpr))
  | [] => .ok []
  | c :: cs =>
    match t.getColumn c with
    | .error e => .error e
    | .ok col =>
      match stat col with
      | .error e => .error e
      | .ok e =>
        match buildAggs stat t cs with
        | .error err => .error err
        | .ok rest => .ok ((c, e) :: rest)

/-- Execution of one batched aggregation query
(`table.aggregate(exprs).execute().to_dict("records")[0]`): the engine
returns a single row whose fields pair each request's label with the
engine-computed scalar. -/
def Table.runAgg (t : Table) (exprs : List (String × AggExpr)) :
    List (String × Scalar) :=
  exprs.map (fun ne => (ne.1, t.evalAgg ne.2))

/-- Result of a `fit` call: the constructed transform or the raised
exception, paired with the list of aggregation queries issued against the
training table during the call. -/
abbrev FitResult := Except Exc Transform × List (List (String × AggExpr))

/-- Embedding of `FillNA.fit`: resolve the selection, then build
`ml.transforms.FillNA(\x7bc: self.fill_value for c in columns\x7d)` directly;
no query is issued. -/
def fillNAFit (inputs : Selector) (v : Scalar) (t : Table) (m : Metadata) :
    FitResult :=
  match inputs.selectColumns t m with
  | .error e => (.error e, [])
  | .ok columns =>
    (.ok (transformsFillNA (columns.map (fun c => (c, v)))), [])

/-- Embedding of `_BaseImpute.fit`: resolve the selection, build one batched
aggregation request over all selected columns (aborting on the first
per-column statistic error), execute it once, and wrap the returned row in
`ml.transforms.FillNA`. -/
def baseImputeFit (stat : Column → Except Exc AggExpr)
    (inputs : Selector) (t : Table) (m : Metadata) : FitResult :=
  match inputs.selectColumns t m with
  | .error e => (.error e, [])
  | .ok columns =>
    match buildAggs stat t columns with
    | .error e => (.error e, [])
    | .ok exprs => (.ok (transformsFillNA (t.runAgg exprs)), [exprs])

/-- Dispatch of `fit` over the step variants: the aggregate-derived variants
share `_BaseImpute.fit` and differ only in the `_stat` strategy. -/
def Step.fit : Step → Table → Metadata → FitResult
  | .fillNA s v, t, m => fillNAFit s v t m
  | .imputeMean s, t, m => baseImputeFit ImputeMean.stat s t m
  | .imputeMedian s, t, m => baseImputeFit ImputeMedian.stat s t m
  | .imputeMode s, t, m => baseImputeFit ImputeMode.stat s t m

/-- A concrete two-column table (a string column and an integer column) whose
engine returns a fixed scalar, used as the evaluation fixture. -/
def tblEx : Table :=
  ⟨[("s", .string), ("x", .int64)], fun _ => Scalar.int 7⟩

/-- Concrete metadata assigning no roles. -/
def mdEx : Metadata := ⟨fun _ => none⟩

/-- Concrete metadata assigning every column the role "feature". -/
def mdEx2 : Metadata := ⟨fun _ => some "feature"⟩

/-- A name in the deduplicated list was in the original list. -/
lemma mem_dedupNames {ns : List String} {c : String}
    (h : c ∈ dedupNames ns) : c ∈ ns := by
  induction ns with
  | nil => exact absurd h (by simp [dedupNames])
  | cons n rest ih =>
    simp only [dedupNames] at h
    by_cases hn : n ∈ dedupNames rest
    · rw [if_pos hn] at h
      exact List.mem_cons_of_mem _ (ih h)
    · rw [if_neg hn] at h
      rcases List.mem_cons.mp h with h | h
      · exact h ▸ List.mem_cons_self _ _
      · exact List.mem_cons_of_mem _ (ih h)

/-- A schema entry's name is found by `lookupType`. -/
lemma lookupType_isSome_of_mem {schema : List (String × DataType)}
    {c : String} {d : DataType} (h : (c, d) ∈ schema) :
    (lookupType schema c).isSome := by
  induction schema with
  | nil => cases h
  | cons nd rest ih =>
    rcases List.mem_cons.mp h with h | h
    · simp [lookupType, ← h]
    · by_cases hn : nd.1 = c
      · simp [lookupType, hn]
      · simpa [lookupType, hn] using ih h

/-- Every column name a selector resolves is present in the table's schema. -/
lemma selectColumns_mem {sel : Selector} {t : Table} {m : Metadata}
    {cols : List String} (hsel : sel.selectColumns t m = .ok cols)
    {c : String} (hc : c ∈ cols) : (lookupType t.schema c).isSome := by
  cases sel with
  | names ns =>
    simp only [Selector.selectColumns] at hsel
    split at hsel
    case isTrue hall =>
      cases hsel
      exact List.all_eq_true.mp hall c (mem_dedupNames hc)
    case isFalse => cases hsel
  | pred p =>
    simp only [Selector.selectColumns] at hsel
    cases hsel
    rcases List.mem_filterMap.mp hc with ⟨nd, hnd, hif⟩
    by_cases hp : p nd.1 nd.2 (m.role nd.1)
    · rw [if_pos hp] at hif
      cases hif
      exact lookupType_isSome_of_mem hnd
    · rw [if_neg hp] at hif
      cases hif

/-- A successfully built aggregation request labels its expressions exactly
with the selected column names, in order. -/
lemma buildAggs_ok_map_fst {stat : Column → Except Exc AggExpr} {t : Table} :
    ∀ {cols : List String} {exprs : List (String × AggExpr)},
      buildAggs stat t cols = .ok exprs → exprs.map Prod.fst = cols := by
  intro cols
  induction cols with
  | nil =>
    intro exprs h
    simp only [buildAggs] at h
    cases h
    rfl
  | cons c cs ih =>
    intro exprs h
    simp only [buildAggs] at h
    split at h
    · cases h
    · split at h
      · cases h
      · split at h
        · cases h
        next rest hb =>
          cases h
          simp [ih hb]

/-- The row an aggregation query returns carries exactly the request's
labels, in order. -/
lemma runAgg_map_fst (t : Table) (exprs : List (String × AggExpr)) :
    (t.runAgg exprs).map Prod.fst = exprs.map Prod.fst := by
  simp [Table.runAgg]

/-- If every selected column is in the schema and some selected column has a
non-numeric type, building the aggregation request with a numeric-only
statistic fails with the `ValueError` naming the first such column. -/
lemma buildAggs_numericStat_error (op : String) (agg : Column → AggExpr)
    (t : Table) :
    ∀ (cols : List String),
      (∀ x ∈ cols, (lookupType t.schema x).isSome) →
      ∀ c d, c ∈ cols → lookupType t.schema c = some d →
        d.isNumeric = false →
      ∃ c' d', c' ∈ cols ∧ lookupType t.schema c' = some d' ∧
        d'.isNumeric = false ∧
        buildAggs (numericStat op agg) t cols =
          .error ⟨.valueError, "Cannot compute " ++ op ++ " of " ++ c' ++
            " - this column is not numeric"⟩ := by
  intro cols
  induction cols with
  | nil =>
    intro _ c d hc _ _
    cases hc
  | cons c0 cs ih =>
    intro hpres c d hc hd hnum
    have hp0 : (lookupType t.schema c0).isSome :=
      hpres c0 (List.mem_cons_self _ _)
    obtain ⟨d0, hd0⟩ := Option.isSome_iff_exists.mp hp0
    by_cases hnum0 : d0.isNumeric
    · have hcs : c ∈ cs := by
        rcases List.mem_cons.mp hc with h | h
        · subst h
          rw [hd] at hd0
          cases hd0
          rw [hnum0] at hnum
          cases hnum
        · exact h
      obtain ⟨c', d', hc', hld', hnum', heq⟩ :=
        ih (fun x hx => hpres x (List.mem_cons_of_mem _ hx)) c d hcs hd hnum
      refine ⟨c', d', List.mem_cons_of_mem _ hc', hld', hnum', ?_⟩
      simp only [buildAggs, Table.getColumn, hd0, numericStat, hnum0,
        if_true, heq]
    · refine ⟨c0, d0, List.mem_cons_self _ _, hd0,
        Bool.eq_false_iff.mpr hnum0, ?_⟩
      simp only [buildAggs, Table.getColumn, hd0, numericStat]
      rw [if_neg hnum0]

/-- Shape of a successful `_BaseImpute.fit`: the selection and the request
construction both succeeded, exactly one query was issued, and the transform
wraps the returned row. -/
lemma baseImputeFit_ok {stat : Column → Except Exc AggExpr} {sel : Selector}
    {t : Table} {m : Metadata} {tr : Transform}
    (hok : (baseImputeFit stat sel t m).1 = .ok tr) :
    ∃ cols exprs, sel.selectColumns t m = .ok cols ∧
      buildAggs stat t cols = .ok exprs ∧
      baseImputeFit stat sel t m =
        (.ok (transformsFillNA (t.runAgg exprs)), [exprs]) := by
  unfold baseImputeFit at hok ⊢
  split at hok
  next e hsel => cases hok
  next cols hsel =>
    split at hok
    next e hb => cases hok
    next exprs hb =>
      refine ⟨cols, exprs, hsel, hb, ?_⟩
      simp only [hsel, hb]

/-- Shape of a successful `FillNA.fit`: the transform pairs every resolved
column with the fill value, and no query is issued. -/
lemma fillNAFit_eq {sel : Selector} {v : Scalar} {t : Table} {m : Metadata}
    {cols : List String} (hsel : sel.selectColumns t m = .ok cols) :
    fillNAFit sel v t m =
      (.ok (transformsFillNA (cols.map (fun c => (c, v)))), []) := by
  unfold fillNAFit
  simp only [hsel]

/-- An explicit-name selection referencing a column absent from the schema
fails with the selector's unresolvable-selection error. -/
lemma selectColumns_names_missing {ns : List String} {t : Table}
    {m : Metadata} {n : String} (hn : n ∈ ns)
    (hmiss : lookupType t.schema n = none) :
    Selector.selectColumns (.names ns) t m =
      .error ⟨.keyError, "column not found in table"⟩ := by
  simp only [Selector.selectColumns]
  rw [if_neg]
  intro hall
  have hsome := List.all_eq_true.mp hall n hn
  rw [hmiss] at hsome
  cases hsome

/-- Building the aggregation request with the mode statistic never fails when
every selected column is present in the schema. -/
lemma buildAggs_mode_ok (t : Table) :
    ∀ (cols : List String),
      (∀ x ∈ cols, (lookupType t.schema x).isSome) →
      ∃ exprs, buildAggs ImputeMode.stat t cols = .ok exprs := by
  intro cols
  induction cols with
  | nil => exact fun _ => ⟨[], rfl⟩
  | cons c cs ih =>
    intro hpres
    obtain ⟨d, hd⟩ :=
      Option.isSome_iff_exists.mp (hpres c (List.mem_cons_self _ _))
    obtain ⟨exprs, hexprs⟩ :=
      ih (fun x hx => hpres x (List.mem_cons_of_mem _ hx))
    refine ⟨(c, .mode ⟨c, d⟩) :: exprs, ?_⟩
    simp only [buildAggs, Table.getColumn, hd, ImputeMode.stat, hexprs]

/-- If the selection resolved but some selected column is non-numeric,
`_BaseImpute.fit` with a numeric-only statistic returns the `ValueError`
naming an offending column, and issues no query. -/
lemma baseImputeFit_numericStat_error (op : String) (agg : Column → AggExpr)
    (sel : Selector) (t : Table) (m : Metadata) (cols : List String)
    (c : String) (d : DataType)
    (hsel : sel.selectColumns t m = .ok cols)
    (hc : c ∈ cols) (hd : lookupType t.schema c = some d)
    (hnum : d.isNumeric = false) :
    ∃ c', c' ∈ cols ∧
      baseImputeFit (numericStat op agg) sel t m =
        (.error ⟨.valueError, "Cannot compute " ++ op ++ " of " ++ c' ++
          " - this column is not numeric"⟩, []) := by
  have hpres : ∀ x ∈ cols, (lookupType t.schema x).isSome :=
    fun x hx => selectColumns_mem hsel hx
  obtain ⟨c', d', hc', _, _, heq⟩ :=
    buildAggs_numericStat_error op agg t cols hpres c d hc hd hnum
  refine ⟨c', hc', ?_⟩
  unfold baseImputeFit
  simp only [hsel, heq]

/-- A successful `_BaseImpute.fit` always wraps its row in
`ml.transforms.FillNA`. -/
lemma baseImputeFit_ok_shape {stat : Column → Except Exc AggExpr}
    {sel : Selector} {t : Table} {m : Metadata} {tr : Transform}
    (hok : (baseImputeFit stat sel t m).1 = .ok tr) :
    ∃ mp, tr = transformsFillNA mp := by
  obtain ⟨cols, exprs, _, _, heq⟩ := baseImputeFit_ok hok
  rw [heq] at hok
  exact ⟨t.runAgg exprs, (Except.ok.inj hok).symm⟩

/-- When the selection fails, every variant's `fit` propagates the
selector's error unmodified and issues no query. -/
lemma fit_error_of_selectError {step : Step} {t : Table} {m : Metadata}
    {e : Exc} (hsel : step.inputs.selectColumns t m = .error e) :
    Step.fit step t m = (.error e, []) := by
  cases step <;> simp only [Step.inputs] at hsel <;>
    simp only [Step.fit, fillNAFit, baseImputeFit, hsel]

/-- When the selection resolves to zero columns, every variant's `fit`
succeeds with an empty substitution mapping. -/
lemma fit_empty_of_selectEmpty {step : Step} {t : Table} {m : Metadata}
    (hsel : step.inputs.selectColumns t m = .ok []) :
    (Step.fit step t m).1 = .ok (transformsFillNA []) := by
  cases step <;> simp only [Step.inputs] at hsel <;>
    simp [Step.fit, fillNAFit, baseImputeFit, hsel, buildAggs, Table.runAgg]

/-- Claim C1, as stated, is false on the code: fitting `ImputeMean` on the
non-numeric column `s` fails with a condition of class `ValueError`, not a
`TypeError`-class condition (the message does identify the column and the
operation). -/
theorem C1_counterexample :
    (Step.fit (.imputeMean (.names ["s"])) tblEx mdEx).1 =
      .error ⟨.valueError,
        "Cannot compute mean of s - this column is not numeric"⟩
    ∧ ExcClass.valueError ≠ ExcClass.typeError :=
  ⟨rfl, by decide⟩

/-- Claim C1 (amended): for every ImputeMean or ImputeMedian step, if a
selected column is not of numeric type, fit fails with a ValueError-class
condition whose message identifies an offending column by name and mentions
the operation attempted ("mean" or "median" respectively). -/
theorem C1_numeric_check_error (step : Step) (sel : Selector) (op : String)
    (hstep : (step = .imputeMean sel ∧ op = "mean") ∨
      (step = .imputeMedian sel ∧ op = "median"))
    (t : Table) (m : Metadata) (cols : List String) (c : String)
    (d : DataType)
    (hsel : sel.selectColumns t m = .ok cols)
    (hc : c ∈ cols) (hd : lookupType t.schema c = some d)
    (hnum : d.isNumeric = false) :
    ∃ c', c' ∈ cols ∧
      (Step.fit step t m).1 = .error ⟨.valueError,
        "Cannot compute " ++ op ++ " of " ++ c' ++
          " - this column is not numeric"⟩ := by
  rcases hstep with ⟨hs, ho⟩ | ⟨hs, ho⟩ <;> subst hs <;> subst ho
  · obtain ⟨c', hc', heq⟩ := baseImputeFit_numericStat_error "mean"
      AggExpr.mean sel t m cols c d hsel hc hd hnum
    exact ⟨c', hc', by simp only [Step.fit, ImputeMean.stat, heq]⟩
  · obtain ⟨c', hc', heq⟩ := baseImputeFit_numericStat_error "median"
      AggExpr.median sel t m cols c d hsel hc hd hnum
    exact ⟨c', hc', by simp only [Step.fit, ImputeMedian.stat, heq]⟩

/-- Witness for C1 (amended) at a concrete input: `ImputeMean` selecting the
string column `s` of `tblEx`. -/
theorem C1_numeric_check_error_witness :
    ∃ c', c' ∈ ["s"] ∧
      (Step.fit (.imputeMean (.names ["s"])) tblEx mdEx).1 =
        .error ⟨.valueError, "Cannot compute " ++ "mean" ++ " of " ++ c' ++
          " - this column is not numeric"⟩ :=
  C1_numeric_check_error (.imputeMean (.names ["s"])) (.names ["s"]) "mean"
    (Or.inl ⟨rfl, rfl⟩) tblEx mdEx ["s"] "s" .string rfl
    (List.mem_cons_self _ _) rfl rfl

/-- Claim C2: for every FillNA step with fill value `v`, fit returns a
Transform pairing every resolved column with exactly `v`, and executes no
query against the table. -/
theorem C2_fillNA_pure (sel : Selector) (v : Scalar) (t : Table)
    (m : Metadata) (cols : List String)
    (hsel : sel.selectColumns t m = .ok cols) :
    ∃ mp, (Step.fit (.fillNA sel v) t m).1 = .ok (transformsFillNA mp) ∧
      mp.map Prod.fst = cols ∧ (∀ p ∈ mp, p.2 = v) ∧
      (Step.fit (.fillNA sel v) t m).2 = [] := by
  refine ⟨cols.map (fun c => (c, v)), ?_, ?_, ?_, ?_⟩
  · simp only [Step.fit, fillNAFit_eq hsel]
  · rw [List.map_map]
    exact List.map_id cols
  · intro p hp
    rcases List.mem_map.mp hp with ⟨c, _, rfl⟩
    rfl
  · simp only [Step.fit, fillNAFit_eq hsel]

/-- Witness for C2 at a concrete input: `FillNA` with fill value `0` on the
column `s` of `tblEx`. -/
theorem C2_fillNA_pure_witness :
    ∃ mp, (Step.fit (.fillNA (.names ["s"]) (.int 0)) tblEx mdEx).1 =
        .ok (transformsFillNA mp) ∧
      mp.map Prod.fst = ["s"] ∧ (∀ p ∈ mp, p.2 = Scalar.int 0) ∧
      (Step.fit (.fillNA (.names ["s"]) (.int 0)) tblEx mdEx).2 = [] :=
  C2_fillNA_pure (.names ["s"]) (.int 0) tblEx mdEx ["s"] rfl

/-- Claim C3: for every aggregate-derived step, a successful fit call issues
exactly one aggregation query, and that one query computes one scalar per
selected column, regardless of how many columns were selected. -/
theorem C3_single_query (step : Step) (sel : Selector)
    (hstep : step = .imputeMean sel ∨ step = .imputeMedian sel ∨
      step = .imputeMode sel)
    (t : Table) (m : Metadata) (cols : List String) (tr : Transform)
    (hsel : sel.selectColumns t m = .ok cols)
    (hok : (Step.fit step t m).1 = .ok tr) :
    ∃ q, (Step.fit step t m).2 = [q] ∧ q.map Prod.fst = cols := by
  rcases hstep with hs | hs | hs
  · subst hs
    obtain ⟨cols', exprs, hsel', hb, heq⟩ := baseImputeFit_ok hok
    rw [hsel'] at hsel
    cases hsel
    refine ⟨exprs, ?_, buildAggs_ok_map_fst hb⟩
    show (baseImputeFit ImputeMean.stat sel t m).2 = [exprs]
    rw [heq]
  · subst hs
    obtain ⟨cols', exprs, hsel', hb, heq⟩ := baseImputeFit_ok hok
    rw [hsel'] at hsel
    cases hsel
    refine ⟨exprs, ?_, buildAggs_ok_map_fst hb⟩
    show (baseImputeFit ImputeMedian.stat sel t m).2 = [exprs]
    rw [heq]
  · subst hs
    obtain ⟨cols', exprs, hsel', hb, heq⟩ := baseImputeFit_ok hok
    rw [hsel'] at hsel
    cases hsel
    refine ⟨exprs, ?_, buildAggs_ok_map_fst hb⟩
    show (baseImputeFit ImputeMode.stat sel t m).2 = [exprs]
    rw [heq]

/-- Witness for C3 at a concrete input: `ImputeMode` over the two columns of
`tblEx` issues one query labeled by both column names. -/
theorem C3_single_query_witness :
    ∃ q, (Step.fit (.imputeMode (.names ["s", "x"])) tblEx mdEx).2 = [q] ∧
      q.map Prod.fst = ["s", "x"] :=
  C3_single_query (.imputeMode (.names ["s", "x"])) (.names ["s", "x"])
    (Or.inr (Or.inr rfl)) tblEx mdEx ["s", "x"]
    (.fillNA [("s", .int 7), ("x", .int 7)]) rfl rfl

/-- Claim C4: fit is atomic with respect to the type-incompatibility error:
for ImputeMean and ImputeMedian, if any selected column fails the
numeric-type check, the whole fit call aborts with an error and no
aggregation query is executed. -/
theorem C4_atomic_abort (step : Step) (sel : Selector)
    (hstep : step = .imputeMean sel ∨ step = .imputeMedian sel)
    (t : Table) (m : Metadata) (cols : List String) (c : String)
    (d : DataType)
    (hsel : sel.selectColumns t m = .ok cols)
    (hc : c ∈ cols) (hd : lookupType t.schema c = some d)
    (hnum : d.isNumeric = false) :
    (∃ e, (Step.fit step t m).1 = .error e) ∧
      (Step.fit step t m).2 = [] := by
  rcases hstep with hs | hs
  · subst hs
    obtain ⟨c', _, heq⟩ := baseImputeFit_numericStat_error "mean"
      AggExpr.mean sel t m cols c d hsel hc hd hnum
    constructor
    · exact ⟨⟨.valueError, "Cannot compute " ++ "mean" ++ " of " ++ c' ++
        " - this column is not numeric"⟩,
        by simp only [Step.fit, ImputeMean.stat, heq]⟩
    · simp only [Step.fit, ImputeMean.stat, heq]
  · subst hs
    obtain ⟨c', _, heq⟩ := baseImputeFit_numericStat_error "median"
      AggExpr.median sel t m cols c d hsel hc hd hnum
    constructor
    · exact ⟨⟨.valueError, "Cannot compute " ++ "median" ++ " of " ++ c' ++
        " - this column is not numeric"⟩,
        by simp only [Step.fit, ImputeMedian.stat, heq]⟩
    · simp only [Step.fit, ImputeMedian.stat, heq]

/-- Witness for C4 at a concrete input: `ImputeMedian` selecting the string
column `s` of `tblEx`. -/
theorem C4_atomic_abort_witness :
    (∃ e, (Step.fit (.imputeMedian (.names ["s"])) tblEx mdEx).1 =
      .error e) ∧
      (Step.fit (.imputeMedian (.names ["s"])) tblEx mdEx).2 = [] :=
  C4_atomic_abort (.imputeMedian (.names ["s"])) (.names ["s"])
    (Or.inr rfl) tblEx mdEx ["s"] "s" .string rfl
    (List.mem_cons_self _ _) rfl rfl

/-- Claim C5: for every step variant, a successful fit produces a Transform
whose mapping is keyed exactly (and in order) by the column names the step's
selector resolved against the training table — no more, no fewer. -/
theorem C5_transform_keys (step : Step) (t : Table) (m : Metadata)
    (cols : List String) (mp : List (String × Scalar))
    (hsel : step.inputs.selectColumns t m = .ok cols)
    (hok : (Step.fit step t m).1 = .ok (Transform.fillNA mp)) :
    mp.map Prod.fst = cols := by
  cases step with
  | fillNA sel v =>
    simp only [Step.inputs] at hsel
    have heq := fillNAFit_eq (v := v) hsel
    have h2 : (Step.fit (.fillNA sel v) t m).1 =
        .ok (transformsFillNA (cols.map (fun c => (c, v)))) := by
      show (fillNAFit sel v t m).1 = _
      rw [heq]
    rw [h2] at hok
    have hmp := Transform.fillNA.inj (Except.ok.inj hok)
    rw [← hmp, List.map_map]
    exact List.map_id cols
  | imputeMean sel =>
    simp only [Step.inputs] at hsel
    obtain ⟨cols', exprs, hsel', hb, heq⟩ := baseImputeFit_ok hok
    rw [hsel'] at hsel
    cases hsel
    have h2 : (Step.fit (.imputeMean sel) t m).1 =
        .ok (transformsFillNA (t.runAgg exprs)) := by
      show (baseImputeFit ImputeMean.stat sel t m).1 = _
      rw [heq]
    rw [h2] at hok
    have hmp := Transform.fillNA.inj (Except.ok.inj hok)
    rw [← hmp, runAgg_map_fst]
    exact buildAggs_ok_map_fst hb
  | imputeMedian sel =>
    simp only [Step.inputs] at hsel
    obtain ⟨cols', exprs, hsel', hb, heq⟩ := baseImputeFit_ok hok
    rw [hsel'] at hsel
    cases hsel
    have h2 : (Step.fit (.imputeMedian sel) t m).1 =
        .ok (transformsFillNA (t.runAgg exprs)) := by
      show (baseImputeFit ImputeMedian.stat sel t m).1 = _
      rw [heq]
    rw [h2] at hok
    have hmp := Transform.fillNA.inj (Except.ok.inj hok)
    rw [← hmp, runAgg_map_fst]
    exact buildAggs_ok_map_fst hb
  | imputeMode sel =>
    simp only [Step.inputs] at hsel
    obtain ⟨cols', exprs, hsel', hb, heq⟩ := baseImputeFit_ok hok
    rw [hsel'] at hsel
    cases hsel
    have h2 : (Step.fit (.imputeMode sel) t m).1 =
        .ok (transformsFillNA (t.runAgg exprs)) := by
      show (baseImputeFit ImputeMode.stat sel t m).1 = _
      rw [heq]
    rw [h2] at hok
    have hmp := Transform.fillNA.inj (Except.ok.inj hok)
    rw [← hmp, runAgg_map_fst]
    exact buildAggs_ok_map_fst hb

/-- Witness for C5 at a concrete input: `ImputeMode` over both columns of
`tblEx` yields a mapping keyed by exactly those columns. -/
theorem C5_transform_keys_witness :
    List.map Prod.fst [("s", Scalar.int 7), ("x", Scalar.int 7)] =
      ["s", "x"] :=
  C5_transform_keys (.imputeMode (.names ["s", "x"])) tblEx mdEx
    ["s", "x"] [("s", Scalar.int 7), ("x", Scalar.int 7)] rfl rfl

/-- Claim C6: ImputeMode places no type restriction on its columns: its
statistic strategy requests the mode unconditionally for any column, and a
fit whose selection resolves never raises a type-incompatibility error. -/
theorem C6_mode_no_type_check :
    (∀ col : Column, ImputeMode.stat col = .ok (.mode col)) ∧
    ∀ (sel : Selector) (t : Table) (m : Metadata) (cols : List String),
      sel.selectColumns t m = .ok cols →
      ∃ mp, (Step.fit (.imputeMode sel) t m).1 =
        .ok (transformsFillNA mp) := by
  constructor
  · intro col
    rfl
  · intro sel t m cols hsel
    obtain ⟨exprs, hexprs⟩ :=
      buildAggs_mode_ok t cols (fun x hx => selectColumns_mem hsel hx)
    exact ⟨t.runAgg exprs,
      by simp only [Step.fit, baseImputeFit, hsel, hexprs]⟩

/-- Witness for C6 at a concrete input: `ImputeMode` on the non-numeric
string column `s` of `tblEx` succeeds. -/
theorem C6_mode_no_type_check_witness :
    ∃ mp, (Step.fit (.imputeMode (.names ["s"])) tblEx mdEx).1 =
      .ok (transformsFillNA mp) :=
  C6_mode_no_type_check.2 (.names ["s"]) tblEx mdEx ["s"] rfl

/-- Claim C7: for every step variant, a predicate-based selection resolving
to zero columns yields a successful fit with an empty substitution mapping,
while an explicit-name selection referencing a column missing from the
schema fails with the selector's unresolvable-selection (KeyError-class)
error. -/
theorem C7_empty_and_missing (step : Step) (t : Table) (m : Metadata) :
    (∀ p, step.inputs = .pred p →
      (Selector.pred p).selectColumns t m = .ok [] →
      (Step.fit step t m).1 = .ok (transformsFillNA [])) ∧
    (∀ ns n, step.inputs = .names ns → n ∈ ns →
      lookupType t.schema n = none →
      ∃ e, (Step.fit step t m).1 = .error e ∧ e.cls = .keyError) := by
  constructor
  · intro p hp hsel
    have hsel' : step.inputs.selectColumns t m = .ok [] := by
      rw [hp]
      exact hsel
    exact fit_empty_of_selectEmpty hsel'
  · intro ns n hns hn hmiss
    have hsel' : step.inputs.selectColumns t m =
        .error ⟨.keyError, "column not found in table"⟩ := by
      rw [hns]
      exact selectColumns_names_missing hn hmiss
    refine ⟨⟨.keyError, "column not found in table"⟩, ?_, rfl⟩
    rw [fit_error_of_selectError hsel']

/-- Witness for C7 at concrete inputs: a never-matching predicate gives an
empty mapping for `FillNA`, and an explicit reference to the missing column
`z` makes `ImputeMean.fit` fail with the KeyError-class selection error. -/
theorem C7_empty_and_missing_witness :
    ((Step.fit (.fillNA (.pred (fun _ _ _ => false)) (.int 0)) tblEx
        mdEx).1 = .ok (transformsFillNA []))
    ∧ ∃ e, (Step.fit (.imputeMean (.names ["z"])) tblEx mdEx).1 =
        .error e ∧ e.cls = .keyError :=
  ⟨(C7_empty_and_missing (.fillNA (.pred (fun _ _ _ => false)) (.int 0))
      tblEx mdEx).1 (fun _ _ _ => false) rfl rfl,
    (C7_empty_and_missing (.imputeMean (.names ["z"])) tblEx mdEx).2
      ["z"] "z" rfl (List.mem_cons_self _ _) rfl⟩

/-- Claim C8: fit is deterministic in its inputs: two fit calls on the same
step, table and metadata yield transforms with identical contents (in the
embedding fit is a pure function of the step configuration, the table and
the metadata, with no state shared between calls). -/
theorem C8_fit_deterministic (step : Step) (t : Table) (m : Metadata)
    (tr1 tr2 : Transform)
    (h1 : (Step.fit step t m).1 = .ok tr1)
    (h2 : (Step.fit step t m).1 = .ok tr2) : tr1 = tr2 := by
  rw [h1] at h2
  exact Except.ok.inj h2

/-- Witness for C8 at a concrete input: two `FillNA` fits on `tblEx` produce
the same mapping. -/
theorem C8_fit_deterministic_witness :
    Transform.fillNA [("s", Scalar.int 0)] =
      Transform.fillNA [("s", Scalar.int 0)] :=
  C8_fit_deterministic (.fillNA (.names ["s"]) (.int 0)) tblEx mdEx _ _
    rfl rfl

/-- Claim C9: every step variant constructs its result with the same
transform constructor, `ml.transforms.FillNA`: the aggregate-derived steps
differ from the constant-fill step only in how the mapping's values are
computed, never in the kind of transform emitted. -/
theorem C9_always_fillNA (step : Step) (t : Table) (m : Metadata)
    (tr : Transform)
    (hok : (Step.fit step t m).1 = .ok tr) :
    ∃ mp, tr = transformsFillNA mp := by
  cases step with
  | fillNA sel v =>
    simp only [Step.fit, fillNAFit] at hok
    split at hok
    · cases hok
    · exact ⟨_, (Except.ok.inj hok).symm⟩
  | imputeMean sel => exact baseImputeFit_ok_shape hok
  | imputeMedian sel => exact baseImputeFit_ok_shape hok
  | imputeMode sel => exact baseImputeFit_ok_shape hok

/-- Witness for C9 at a concrete input: the transform a `FillNA` fit on
`tblEx` produces is a `ml.transforms.FillNA` value. -/
theorem C9_always_fillNA_witness :
    ∃ mp, Transform.fillNA [("s", Scalar.int 0)] = transformsFillNA mp :=
  C9_always_fillNA (.fillNA (.names ["s"]) (.int 0)) tblEx mdEx _ rfl

/-- Claim C10: metadata influences fit only through column selection: if the
step's selector resolves identically under two metadata values, fit returns
identical results (transform and issued queries) under the two. -/
theorem C10_metadata_only_selection (step : Step) (t : Table)
    (m1 m2 : Metadata)
    (hsel : step.inputs.selectColumns t m1 =
      step.inputs.selectColumns t m2) :
    Step.fit step t m1 = Step.fit step t m2 := by
  cases step <;> simp only [Step.inputs] at hsel <;>
    simp only [Step.fit, fillNAFit, baseImputeFit, hsel]

/-- Witness for C10 at a concrete input: changing every column's role leaves
a name-based `FillNA` fit unchanged. -/
theorem C10_metadata_only_selection_witness :
    Step.fit (.fillNA (.names ["s"]) (.int 0)) tblEx mdEx =
      Step.fit (.fillNA (.names ["s"]) (.int 0)) tblEx mdEx2 :=
  C10_metadata_only_selection (.fillNA (.names ["s"]) (.int 0)) tblEx
    mdEx mdEx2 rfl

example :
    Selector.selectColumns (.names ["s"]) tblEx mdEx = .ok ["s"] := by
  rfl

example :
    (Step.fit (.imputeMean (.names ["s"])) tblEx mdEx).1 =
      .error ⟨.valueError,
        "Cannot compute mean of s - this column is not numeric"⟩ := by
  rfl

example :
    Step.fit (.imputeMode (.names ["s", "x"])) tblEx mdEx =
      (.ok (.fillNA [("s", .int 7), ("x", .int 7)]),
        [[("s", .mode ⟨"s", .string⟩), ("x", .mode ⟨"x", .int64⟩)]]) := by
  rfl

end Ibisml
